import Mathlib

/-!
Verification of the SwarmSim demo engine (src/script.js) against its
natural-language specification.

The engine is embedded shallowly: JS numbers become real numbers, and every
call to the global `Math.random()` consumes the next value of an explicit
stream `Rng` (JS guarantees draws lie in `[0,1)`; `ValidRng` captures that).
Stateful loops become structural recursions that thread the stream in the
same order as the source iterates.  The bandwidth-constrained message
router is not present in the source tree, so it is modelled from the spec
(section 4.2) in a clearly marked block below.
-/

namespace Swarm

/-- Stream of values produced by successive calls to the global
`Math.random()`.  The engine has no seed of its own; this stream is the
only source of randomness. -/
def Rng : Type := ℕ → ℝ

/-- One call to `Math.random()`: yields the next stream value. -/
def randomDraw (g : Rng) : ℝ × Rng := (g 0, fun n => g (n + 1))

/-- `Math.random()` always returns a value in `[0,1)`. -/
def ValidRng (g : Rng) : Prop := ∀ n, 0 ≤ g n ∧ g n < 1

/-- src: `const rand = (min,max) => Math.random()*(max-min)+min;` -/
noncomputable def rand (lo hi : ℝ) (g : Rng) : ℝ × Rng :=
  let p := randomDraw g
  (p.1 * (hi - lo) + lo, p.2)

/-- src: `const clamp = (v,a,b) => Math.max(a, Math.min(b, v));` -/
noncomputable def clamp (v a b : ℝ) : ℝ := max a (min b v)

/-- src: `function dist(a,b){ const dx=a.x-b.x, dy=a.y-b.y; return Math.hypot(dx,dy); }` -/
noncomputable def dist (p q : ℝ × ℝ) : ℝ :=
  Real.sqrt ((p.1 - q.1) ^ 2 + (p.2 - q.2) ^ 2)

/-- The three agent strategies spawned by the demo engine. -/
inductive AgentType where
  | greedy
  | cautious
  | explorer
deriving DecidableEq

/-- Agent record created by `newAgent` in src/script.js. -/
structure Agent where
  x : ℝ
  y : ℝ
  vx : ℝ
  vy : ℝ
  type : AgentType
  wobble : ℝ
  score : ℝ

/-- Position of an agent, as passed to `dist`. -/
def Agent.pos (a : Agent) : ℝ × ℝ := (a.x, a.y)

/-- Food record pushed by `spawnAll` in src/script.js. -/
structure Food where
  x : ℝ
  y : ℝ
  value : ℝ
  mobile : Bool
  vx : ℝ
  vy : ℝ

/-- Danger record pushed by `spawnAll` in src/script.js. -/
structure Danger where
  x : ℝ
  y : ℝ
  severity : ℝ
  mobile : Bool
  vx : ℝ
  vy : ℝ

/-- Whole mutable state of the engine: the module-level variables
`agents, foods, dangers, tick, score` plus the fixed canvas extent
`canvas.width/devicePixelRatio` and `canvas.height/devicePixelRatio`. -/
structure SimState where
  agents : List Agent
  foods : List Food
  dangers : List Danger
  tick : ℕ
  score : ℝ
  w : ℝ
  h : ℝ

/-- The raw control-panel inputs read by `spawnAll`.  `Number(input.value)`
yields either a number (`some v`) or `NaN` (`none`). -/
structure Config where
  agentCount : Option ℝ
  pGreedy : Option ℝ
  pCautious : Option ℝ
  pExplorer : Option ℝ
  foodCount : Option ℝ
  dangerCount : Option ℝ

/-- JS `Number(x) || d`: `NaN` and `0` are falsy and fall back to `d`. -/
noncomputable def jsOr (x : Option ℝ) (d : ℝ) : ℝ :=
  match x with
  | none => d
  | some v => if v = 0 then d else v

/-- src: `function newAgent(type){ ... }` — five `Math.random()` draws, in
source evaluation order: x, y, vx, vy, wobble. -/
noncomputable def newAgent (w h : ℝ) (ty : AgentType) (g : Rng) : Agent × Rng :=
  let px := rand 40 (w - 40) g
  let py := rand 40 (h - 40) px.2
  let pvx := rand (-0.8) 0.8 py.2
  let pvy := rand (-0.8) 0.8 pvx.2
  let pw := randomDraw pvy.2
  ({ x := px.1, y := py.1, vx := pvx.1, vy := pvy.1, type := ty,
     wobble := pw.1 * 10, score := 0 }, pw.2)

/-- src: `for(let i=0;i<g;i++) agents.push(newAgent('greedy'));` — spawn
`n` agents of one type, threading the random stream. -/
noncomputable def spawnAgents (w h : ℝ) (ty : AgentType) : ℕ → Rng → List Agent × Rng
  | 0, g => ([], g)
  | n + 1, g =>
    let p := newAgent w h ty g
    let rest := spawnAgents w h ty n p.2
    (p.1 :: rest.1, rest.2)

/-- src: `const val = (i%3===0?10:(i%3===1?6:2));` — value/severity pattern. -/
noncomputable def valPattern (i : ℕ) : ℝ :=
  if i % 3 = 0 then 10 else if i % 3 = 1 then 6 else 2

/-- src: the food-spawning loop of `spawnAll`.  Draw order inside the object
literal: x, y, mobile, vx, vy. -/
noncomputable def spawnFoods (w h : ℝ) : ℕ → ℕ → Rng → List Food × Rng
  | _, 0, g => ([], g)
  | i, n + 1, g =>
    let px := rand 40 (w - 40) g
    let py := rand 40 (h - 40) px.2
    let pm := randomDraw py.2
    let pvx := rand (-0.5) 0.5 pm.2
    let pvy := rand (-0.5) 0.5 pvx.2
    let rest := spawnFoods w h (i + 1) n pvy.2
    ({ x := px.1, y := py.1, value := valPattern i,
       mobile := decide (pm.1 < 0.3), vx := pvx.1, vy := pvy.1 } :: rest.1,
     rest.2)

/-- src: the danger-spawning loop of `spawnAll`. -/
noncomputable def spawnDangers (w h : ℝ) : ℕ → ℕ → Rng → List Danger × Rng
  | _, 0, g => ([], g)
  | i, n + 1, g =>
    let px := rand 40 (w - 40) g
    let py := rand 40 (h - 40) px.2
    let pm := randomDraw py.2
    let pvx := rand (-0.6) 0.6 pm.2
    let pvy := rand (-0.6) 0.6 pvx.2
    let rest := spawnDangers w h (i + 1) n pvy.2
    ({ x := px.1, y := py.1, severity := valPattern i,
       mobile := decide (pm.1 < 0.4), vx := pvx.1, vy := pvy.1 } :: rest.1,
     rest.2)

/-- src: `function spawnAll(){ ... }` — resets all module state and
re-populates agents, foods and dangers from the control inputs, coercing
every input with `Number(...)||default`, `Math.max` and `Math.floor`. -/
noncomputable def spawnAll (w h : ℝ) (c : Config) (g : Rng) : SimState × Rng :=
  let N : ℤ := max 1 ⌊jsOr c.agentCount 5⌋
  let gp := jsOr c.pGreedy 0
  let cp := jsOr c.pCautious 0
  let ep := jsOr c.pExplorer 0
  let total := if gp + cp + ep = 0 then 100 else gp + cp + ep
  let gN : ℤ := round ((gp / total) * (N : ℝ))
  let cN : ℤ := round ((cp / total) * (N : ℝ))
  let eN : ℤ := max 0 (N - gN - cN)
  let pg := spawnAgents w h AgentType.greedy gN.toNat g
  let pc := spawnAgents w h AgentType.cautious cN.toNat pg.2
  let pe := spawnAgents w h AgentType.explorer eN.toNat pc.2
  let foodN : ℤ := max 0 ⌊jsOr c.foodCount 9⌋
  let pf := spawnFoods w h 0 foodN.toNat pe.2
  let dangerN : ℤ := max 0 ⌊jsOr c.dangerCount 5⌋
  let pd := spawnDangers w h 0 dangerN.toNat pf.2
  ({ agents := pg.1 ++ pc.1 ++ pe.1, foods := pf.1, dangers := pd.1,
     tick := 0, score := 0, w := w, h := h }, pd.2)

/-- src, `stepOnce`: `if(f.mobile){ f.x+=f.vx; f.y+=f.vy; if(f.x<20||f.x>W-20)
f.vx*=-1; if(f.y<20||f.y>H-20) f.vy*=-1; }` — passive motion of a mobile food;
the bounce test reads the already-updated position. -/
noncomputable def moveFood (w h : ℝ) (f : Food) : Food :=
  if f.mobile then
    let x := f.x + f.vx
    let y := f.y + f.vy
    { f with
      x := x
      y := y
      vx := if x < 20 ∨ x > w - 20 then -f.vx else f.vx
      vy := if y < 20 ∨ y > h - 20 then -f.vy else f.vy }
  else f

/-- src, `stepOnce`: identical passive-motion update for a mobile danger. -/
noncomputable def moveDanger (w h : ℝ) (d : Danger) : Danger :=
  if d.mobile then
    let x := d.x + d.vx
    let y := d.y + d.vy
    { d with
      x := x
      y := y
      vx := if x < 20 ∨ x > w - 20 then -d.vx else d.vx
      vy := if y < 20 ∨ y > h - 20 then -d.vy else d.vy }
  else d

/-- src, greedy branch: `let best=null, bestScore=-Infinity; for(const f of
foods){ const s = f.value - dist(a,f)*0.02; if(s>bestScore){...} }` — the
first food always beats `-Infinity`, so the accumulator starts empty. -/
noncomputable def bestStep (a : Agent) (acc : Option (Food × ℝ)) (f : Food) :
    Option (Food × ℝ) :=
  let s := f.value - dist a.pos (f.x, f.y) * 0.02
  match acc with
  | none => some (f, s)
  | some bp => if s > bp.2 then some (f, s) else some bp

noncomputable def bestFood (a : Agent) (fs : List Food) : Option (Food × ℝ) :=
  fs.foldl (bestStep a) none

/-- src, cautious branch: `let near=null, nd=Infinity; for(const d of
dangers){ const dd=dist(a,d); if(dd<nd){...} }`. -/
noncomputable def nearStep (a : Agent) (acc : Option (Danger × ℝ)) (d : Danger) :
    Option (Danger × ℝ) :=
  let dd := dist a.pos (d.x, d.y)
  match acc with
  | none => some (d, dd)
  | some bp => if dd < bp.2 then some (d, dd) else some bp

noncomputable def nearestDanger (a : Agent) (ds : List Danger) : Option (Danger × ℝ) :=
  ds.foldl (nearStep a) none

/-- Placeholder food used to model the (unreachable for in-range draws)
JS access `foods[i]` with `i` outside the array. -/
def fallbackFood : Food := { x := 0, y := 0, value := 0, mobile := false, vx := 0, vy := 0 }

/-- src, `stepOnce` agent-logic block: the per-type velocity update.
Greedy steers toward the best food (`m = Math.hypot(dx,dy)||1`); cautious
always flees the nearest danger when it is closer than 120 AND, whenever
any food exists, additionally drifts toward a uniformly drawn food;
explorer adds two `rand(-0.02,0.02)` nudges. -/
noncomputable def agentSteer (a : Agent) (fs : List Food) (ds : List Danger) (g : Rng) :
    Agent × Rng :=
  match a.type with
  | AgentType.greedy =>
    (match bestFood a fs with
     | none => a
     | some bp =>
       let dx := bp.1.x - a.x
       let dy := bp.1.y - a.y
       let m0 := Real.sqrt (dx ^ 2 + dy ^ 2)
       let m := if m0 = 0 then 1 else m0
       { a with vx := a.vx + dx / m * 0.05, vy := a.vy + dy / m * 0.05 }, g)
  | AgentType.cautious =>
    let a1 :=
      match nearestDanger a ds with
      | none => a
      | some np =>
        if np.2 < 120 then
          { a with vx := a.vx + (a.x - np.1.x) * 0.003,
                   vy := a.vy + (a.y - np.1.y) * 0.003 }
        else a
    if fs.length ≠ 0 then
      let pr := randomDraw g
      let anyf := fs.getD (⌊pr.1 * (fs.length : ℝ)⌋).toNat fallbackFood
      ({ a1 with vx := a1.vx + (anyf.x - a1.x) * 0.0008,
                 vy := a1.vy + (anyf.y - a1.y) * 0.0008 }, pr.2)
    else (a1, g)
  | AgentType.explorer =>
    let p1 := rand (-0.02) 0.02 g
    let p2 := rand (-0.02) 0.02 p1.2
    ({ a with vx := a.vx + p1.1, vy := a.vy + p2.1 }, p2.2)

/-- src, `stepOnce`: `a.vx *= 0.98; a.vy *= 0.98; a.x += a.vx; a.y += a.vy;
a.x = clamp(a.x, 12, W-12); a.y = clamp(a.y, 12, H-12);`. -/
noncomputable def dampMove (w h : ℝ) (a : Agent) : Agent :=
  let vx := a.vx * 0.98
  let vy := a.vy * 0.98
  { a with
    vx := vx
    vy := vy
    x := clamp (a.x + vx) 12 (w - 12)
    y := clamp (a.y + vy) 12 (h - 12) }

/-- src, `stepOnce`: `for(let i=foods.length-1;i>=0;i--){ if(dist(a, foods[i])
< 14){ score += foods[i].value; a.score += foods[i].value; foods.splice(i,1);
} }` — the loop runs from the last index down, so the recursion processes the
tail (later indices) first.  Returns (agent, global score, surviving foods). -/
noncomputable def collectFoods (a : Agent) (sc : ℝ) : List Food → Agent × ℝ × List Food
  | [] => (a, sc, [])
  | f :: rest =>
    let r := collectFoods a sc rest
    if dist a.pos (f.x, f.y) < 14 then
      ({ r.1 with score := r.1.score + f.value }, r.2.1 + f.value, r.2.2)
    else (r.1, r.2.1, f :: r.2.2)

/-- src, `stepOnce`: `for(let i=dangers.length-1;i>=0;i--){ if(dist(a,
dangers[i]) < 14){ score -= dangers[i].severity; a.score -= ...;
if(Math.random()<0.06) dangers.splice(i,1); } }` — one extra draw per
contacted danger, consumed in descending index order. -/
noncomputable def hitDangers (a : Agent) (sc : ℝ) (g : Rng) :
    List Danger → Agent × ℝ × List Danger × Rng
  | [] => (a, sc, [], g)
  | d :: rest =>
    let r := hitDangers a sc g rest
    if dist a.pos (d.x, d.y) < 14 then
      let pr := randomDraw r.2.2.2
      ({ r.1 with score := r.1.score - d.severity }, r.2.1 - d.severity,
       (if pr.1 < 0.06 then r.2.2.1 else d :: r.2.2.1), pr.2)
    else (r.1, r.2.1, d :: r.2.2.1, r.2.2.2)

/-- One iteration of the `for(const a of agents)` body of `stepOnce`:
steer, damp/move/clamp, collect foods, contact dangers. -/
noncomputable def stepAgent (w h : ℝ) (a : Agent) (fs : List Food) (ds : List Danger)
    (sc : ℝ) (g : Rng) : Agent × List Food × List Danger × ℝ × Rng :=
  let p1 := agentSteer a fs ds g
  let a2 := dampMove w h p1.1
  let p2 := collectFoods a2 sc fs
  let p3 := hitDangers p2.1 p2.2.1 p1.2 ds
  (p3.1, p2.2.2, p3.2.2.1, p3.2.1, p3.2.2.2)

/-- The whole `for(const a of agents)` loop of `stepOnce`: agents are
processed in list order, and each sees the foods/dangers/score left by its
predecessors. -/
noncomputable def stepAgents (w h : ℝ) :
    List Agent → List Food → List Danger → ℝ → Rng →
    List Agent × List Food × List Danger × ℝ × Rng
  | [], fs, ds, sc, g => ([], fs, ds, sc, g)
  | a :: rest, fs, ds, sc, g =>
    let p := stepAgent w h a fs ds sc g
    let q := stepAgents w h rest p.2.1 p.2.2.1 p.2.2.2.1 p.2.2.2.2
    (p.1 :: q.1, q.2.1, q.2.2.1, q.2.2.2.1, q.2.2.2.2)

/-- src: `function stepOnce(){ ... tick++; }` — passive motion of mobile
items, then the agent loop, then the tick increment (`updateStats` only
reads state). -/
noncomputable def stepOnce (s : SimState) (g : Rng) : SimState × Rng :=
  let fs := s.foods.map (moveFood s.w s.h)
  let ds := s.dangers.map (moveDanger s.w s.h)
  let p := stepAgents s.w s.h s.agents fs ds s.score g
  ({ s with
     agents := p.1
     foods := p.2.1
     dangers := p.2.2.1
     score := p.2.2.2.1
     tick := s.tick + 1 }, p.2.2.2.2)

/-- The values written to the stats panel by `updateStats` (numeric values
before their `String(...)` conversion). -/
structure Stats where
  demoMode : Bool
  tick : ℕ
  agents : ℕ
  food : ℕ
  danger : ℕ
  score : ℤ

/-- src: `function updateStats(){ ... statScore.textContent =
String(Math.max(0, Math.round(score))); }` — JS `Math.round` rounds half
toward positive infinity, exactly Mathlib's `round`. -/
noncomputable def updateStats (s : SimState) : Stats :=
  { demoMode := decide (s.agents.length ≤ 10),
    tick := s.tick,
    agents := s.agents.length,
    food := s.foods.length,
    danger := s.dangers.length,
    score := max 0 (round s.score) }

/-!  The bandwidth-constrained message router.  No router exists anywhere in
the source tree (src/ holds only the landing-page demo), so this block is
modelled from spec section 4.2 and settled against that model. -/

/-- Modelled from the spec: a candidate `Message` of section 3 — sender id,
priority score (importance, staleness-discounted) and encoded size in bits.
The payload itself plays no role in routing. -/
structure Message where
  sender : ℕ
  priority : ℚ
  bits : ℕ
deriving DecidableEq

/-- Modelled from the spec: the routing order — "sort descending by score
with a deterministic tie-break (lower sender id first)".  `m` goes before
`n` when `m` has the higher score, or equal scores and `m` the lower id. -/
def msgBefore (m n : Message) : Bool :=
  decide (n.priority < m.priority ∨ (m.priority = n.priority ∧ m.sender ≤ n.sender))

/-- Insert one message into an already routed-order list. -/
def insertMsg (m : Message) : List Message → List Message
  | [] => [m]
  | n :: rest => if msgBefore m n then m :: n :: rest else n :: insertMsg m rest

/-- Sort the tick's candidates into routing order (insertion sort). -/
def sortMsgs : List Message → List Message
  | [] => []
  | m :: rest => insertMsg m (sortMsgs rest)

/-- Modelled from the spec: "Greedily admit messages in that order,
accumulating their encoded bit cost, until the next candidate would exceed
the remaining budget; remaining candidates are dropped for this tick".
`used` is the bit cost already committed this tick. -/
def admitMsgs (budget : ℕ) : List Message → ℕ → List Message
  | [], _ => []
  | m :: rest, used =>
    if used + m.bits ≤ budget then m :: admitMsgs budget rest (used + m.bits)
    else []

/-- Modelled from the spec: the Router's per-tick delivery selection for one
set of candidate messages under the fixed bit budget `bandwidth_bits`. -/
def routeMessages (budget : ℕ) (msgs : List Message) : List Message :=
  admitMsgs budget (sortMsgs msgs) 0

lemma insertMsg_perm (m : Message) (l : List Message) :
    List.Perm (insertMsg m l) (m :: l) := by
  induction l with
  | nil => simp [insertMsg]
  | cons n rest ih =>
    by_cases h : msgBefore m n
    · simp [insertMsg, h]
    · simp only [insertMsg, h, Bool.false_eq_true, if_false]
      exact (ih.cons n).trans (List.Perm.swap m n rest)

lemma sortMsgs_perm (l : List Message) : List.Perm (sortMsgs l) l := by
  induction l with
  | nil => simp [sortMsgs]
  | cons m rest ih => exact (insertMsg_perm m (sortMsgs rest)).trans (ih.cons m)

lemma admitMsgs_le (budget : ℕ) :
    ∀ (l : List Message) (used : ℕ), used ≤ budget →
      used + ((admitMsgs budget l used).map Message.bits).sum ≤ budget := by
  intro l
  induction l with
  | nil => intro used h; simpa [admitMsgs] using h
  | cons m rest ih =>
    intro used h
    by_cases hfit : used + m.bits ≤ budget
    · have := ih (used + m.bits) hfit
      simp only [admitMsgs, hfit, if_true, List.map_cons, List.sum_cons]
      omega
    · simpa [admitMsgs, hfit] using h

lemma admitMsgs_all (budget : ℕ) :
    ∀ (l : List Message) (used : ℕ),
      used + (l.map Message.bits).sum ≤ budget → admitMsgs budget l used = l := by
  intro l
  induction l with
  | nil => intro used _; simp [admitMsgs]
  | cons m rest ih =>
    intro used h
    simp only [List.map_cons, List.sum_cons] at h
    have hfit : used + m.bits ≤ budget := by omega
    have hrest : (used + m.bits) + (rest.map Message.bits).sum ≤ budget := by omega
    simp [admitMsgs, hfit, ih (used + m.bits) hrest]

lemma admitMsgs_zero :
    ∀ (l : List Message) (used : ℕ), (∀ m ∈ l, 0 < m.bits) →
      admitMsgs 0 l used = [] := by
  intro l
  cases l with
  | nil => intro used _; simp [admitMsgs]
  | cons m rest =>
    intro used h
    have : ¬ (used + m.bits ≤ 0) := by
      have := h m (by simp)
      omega
    simp [admitMsgs, this]

/-- C2: every tick, the router delivers at most `bandwidth_bits` total
encoded bits; a zero budget delivers nothing (messages have positive
encoded size); a budget at least the sum of all candidate sizes delivers
every candidate. -/
theorem router_budget_exactness (budget : ℕ) (msgs : List Message) :
    ((routeMessages budget msgs).map Message.bits).sum ≤ budget
    ∧ (budget = 0 → (∀ m ∈ msgs, 0 < m.bits) → routeMessages budget msgs = [])
    ∧ ((msgs.map Message.bits).sum ≤ budget →
        (routeMessages budget msgs).length = msgs.length) := by
  refine ⟨?_, ?_, ?_⟩
  · simpa using admitMsgs_le budget (sortMsgs msgs) 0 (Nat.zero_le budget)
  · intro hb hpos
    subst hb
    apply admitMsgs_zero
    intro m hm
    exact hpos m ((sortMsgs_perm msgs).mem_iff.mp hm)
  · intro hsum
    have hperm : List.Perm ((sortMsgs msgs).map Message.bits) (msgs.map Message.bits) :=
      (sortMsgs_perm msgs).map Message.bits
    have h0 : 0 + ((sortMsgs msgs).map Message.bits).sum ≤ budget := by
      simpa [hperm.sum_eq] using hsum
    unfold routeMessages
    rw [admitMsgs_all budget (sortMsgs msgs) 0 h0]
    exact (sortMsgs_perm msgs).length_eq

/-- C2 witness: the router facts instantiated at a concrete budget and
candidate set. -/
theorem router_budget_exactness_witness :
    ((routeMessages 7 [⟨0, 5, 3⟩, ⟨1, 7, 4⟩]).map Message.bits).sum ≤ 7
    ∧ ((7 : ℕ) = 0 → (∀ m ∈ [(⟨0, 5, 3⟩ : Message), ⟨1, 7, 4⟩], 0 < m.bits) →
        routeMessages 7 [⟨0, 5, 3⟩, ⟨1, 7, 4⟩] = [])
    ∧ ((([(⟨0, 5, 3⟩ : Message), ⟨1, 7, 4⟩].map Message.bits).sum ≤ 7) →
        (routeMessages 7 [⟨0, 5, 3⟩, ⟨1, 7, 4⟩]).length =
          [(⟨0, 5, 3⟩ : Message), ⟨1, 7, 4⟩].length) :=
  router_budget_exactness 7 [⟨0, 5, 3⟩, ⟨1, 7, 4⟩]

/-!  C1: determinism. -/

/-- Control inputs selecting one explorer agent, no foods, no dangers. -/
def cfgOneExplorer : Config :=
  { agentCount := some 1, pGreedy := some 0, pCautious := some 0,
    pExplorer := some 1, foodCount := some (-1), dangerCount := some (-1) }

/-- A `Math.random` stream that always yields `0`. -/
noncomputable def gZero : Rng := fun _ => 0

/-- A `Math.random` stream that always yields `1/2`. -/
noncomputable def gHalf : Rng := fun _ => 1/2

lemma spawnAll_cfgOneExplorer_agents (g : Rng) :
    (spawnAll 400 360 cfgOneExplorer g).1.agents.map Agent.x = [g 0 * 320 + 40] := by
  norm_num [spawnAll, cfgOneExplorer, jsOr, spawnAgents, newAgent, rand, randomDraw]

/-- C1: the engine draws every random value from the ambient, unseeded
`Math.random()` stream; with one and the same configuration, two runs whose
ambient streams differ spawn agents at different positions, so identical
(seed, config) pairs do not reproduce identical tick-by-tick history — no
seed input exists at all in src/script.js. -/
theorem spawn_depends_on_ambient_randomness :
    (spawnAll 400 360 cfgOneExplorer gZero).1.agents.map Agent.x = [40]
    ∧ (spawnAll 400 360 cfgOneExplorer gHalf).1.agents.map Agent.x = [200]
    ∧ (spawnAll 400 360 cfgOneExplorer gZero).1.agents ≠
        (spawnAll 400 360 cfgOneExplorer gHalf).1.agents := by
  have h0 := spawnAll_cfgOneExplorer_agents gZero
  have h1 := spawnAll_cfgOneExplorer_agents gHalf
  rw [show gZero 0 = 0 from rfl] at h0
  rw [show gHalf 0 = 1/2 from rfl] at h1
  refine ⟨by rw [h0]; norm_num, by rw [h1]; norm_num, fun hEq => ?_⟩
  have := congrArg (List.map Agent.x) hEq
  rw [h0, h1] at this
  norm_num at this

/-!  C3 / C4: collision resolution and the score frame property. -/

/-- Total value of the foods the (already moved) agent collides with. -/
noncomputable def collectGain (a : Agent) (fs : List Food) : ℝ :=
  ((fs.filter fun f => decide (dist a.pos (f.x, f.y) < 14)).map Food.value).sum

/-- Total severity of the dangers the (already moved) agent contacts. -/
noncomputable def hazardLoss (a : Agent) (ds : List Danger) : ℝ :=
  ((ds.filter fun d => decide (dist a.pos (d.x, d.y) < 14)).map Danger.severity).sum

lemma collectGain_cons_hit (a : Agent) (f : Food) (rest : List Food)
    (hf : dist a.pos (f.x, f.y) < 14) :
    collectGain a (f :: rest) = f.value + collectGain a rest := by
  simp [collectGain, List.filter_cons, hf]

lemma collectGain_cons_miss (a : Agent) (f : Food) (rest : List Food)
    (hf : ¬ dist a.pos (f.x, f.y) < 14) :
    collectGain a (f :: rest) = collectGain a rest := by
  simp [collectGain, List.filter_cons, hf]

lemma hazardLoss_cons_hit (a : Agent) (d : Danger) (rest : List Danger)
    (hd : dist a.pos (d.x, d.y) < 14) :
    hazardLoss a (d :: rest) = d.severity + hazardLoss a rest := by
  simp [hazardLoss, List.filter_cons, hd]

lemma hazardLoss_cons_miss (a : Agent) (d : Danger) (rest : List Danger)
    (hd : ¬ dist a.pos (d.x, d.y) < 14) :
    hazardLoss a (d :: rest) = hazardLoss a rest := by
  simp [hazardLoss, List.filter_cons, hd]

lemma collectFoods_agent_score (a : Agent) (sc : ℝ) : ∀ fs : List Food,
    (collectFoods a sc fs).1.score = a.score + collectGain a fs := by
  intro fs
  induction fs with
  | nil => simp [collectFoods, collectGain]
  | cons f rest ih =>
    by_cases hf : dist a.pos (f.x, f.y) < 14
    · simp only [collectFoods, if_pos hf, collectGain_cons_hit a f rest hf, ih]
      ring
    · simp only [collectFoods, if_neg hf, collectGain_cons_miss a f rest hf, ih]

lemma collectFoods_agent_x (a : Agent) (sc : ℝ) : ∀ fs : List Food,
    (collectFoods a sc fs).1.x = a.x := by
  intro fs
  induction fs with
  | nil => simp [collectFoods]
  | cons f rest ih =>
    by_cases hf : dist a.pos (f.x, f.y) < 14
    · simp only [collectFoods, if_pos hf, ih]
    · simp only [collectFoods, if_neg hf, ih]

lemma collectFoods_agent_y (a : Agent) (sc : ℝ) : ∀ fs : List Food,
    (collectFoods a sc fs).1.y = a.y := by
  intro fs
  induction fs with
  | nil => simp [collectFoods]
  | cons f rest ih =>
    by_cases hf : dist a.pos (f.x, f.y) < 14
    · simp only [collectFoods, if_pos hf, ih]
    · simp only [collectFoods, if_neg hf, ih]

lemma collectFoods_global_score (a : Agent) (sc : ℝ) : ∀ fs : List Food,
    (collectFoods a sc fs).2.1 = sc + collectGain a fs := by
  intro fs
  induction fs with
  | nil => simp [collectFoods, collectGain]
  | cons f rest ih =>
    by_cases hf : dist a.pos (f.x, f.y) < 14
    · simp only [collectFoods, if_pos hf, collectGain_cons_hit a f rest hf, ih]
      ring
    · simp only [collectFoods, if_neg hf, collectGain_cons_miss a f rest hf, ih]

lemma collectFoods_foods (a : Agent) (sc : ℝ) : ∀ fs : List Food,
    (collectFoods a sc fs).2.2 = fs.filter fun f => decide (14 ≤ dist a.pos (f.x, f.y)) := by
  intro fs
  induction fs with
  | nil => simp [collectFoods]
  | cons f rest ih =>
    by_cases hf : dist a.pos (f.x, f.y) < 14
    · have hf2 : ¬ (14 ≤ dist a.pos (f.x, f.y)) := not_le.mpr hf
      simp only [collectFoods, if_pos hf, ih, List.filter_cons]
      simp [hf2]
    · have hf2 : 14 ≤ dist a.pos (f.x, f.y) := not_lt.mp hf
      simp only [collectFoods, if_neg hf, ih, List.filter_cons]
      simp [hf2]

lemma hitDangers_agent_score (a : Agent) (sc : ℝ) (g : Rng) : ∀ ds : List Danger,
    (hitDangers a sc g ds).1.score = a.score - hazardLoss a ds := by
  intro ds
  induction ds with
  | nil => simp [hitDangers, hazardLoss]
  | cons d rest ih =>
    by_cases hd : dist a.pos (d.x, d.y) < 14
    · simp only [hitDangers, if_pos hd, hazardLoss_cons_hit a d rest hd, ih]
      ring
    · simp only [hitDangers, if_neg hd, hazardLoss_cons_miss a d rest hd, ih]

lemma hitDangers_agent_x (a : Agent) (sc : ℝ) (g : Rng) : ∀ ds : List Danger,
    (hitDangers a sc g ds).1.x = a.x := by
  intro ds
  induction ds with
  | nil => simp [hitDangers]
  | cons d rest ih =>
    by_cases hd : dist a.pos (d.x, d.y) < 14
    · simp only [hitDangers, if_pos hd, ih]
    · simp only [hitDangers, if_neg hd, ih]

lemma hitDangers_agent_y (a : Agent) (sc : ℝ) (g : Rng) : ∀ ds : List Danger,
    (hitDangers a sc g ds).1.y = a.y := by
  intro ds
  induction ds with
  | nil => simp [hitDangers]
  | cons d rest ih =>
    by_cases hd : dist a.pos (d.x, d.y) < 14
    · simp only [hitDangers, if_pos hd, ih]
    · simp only [hitDangers, if_neg hd, ih]

lemma hitDangers_global_score (a : Agent) (sc : ℝ) (g : Rng) : ∀ ds : List Danger,
    (hitDangers a sc g ds).2.1 = sc - hazardLoss a ds := by
  intro ds
  induction ds with
  | nil => simp [hitDangers, hazardLoss]
  | cons d rest ih =>
    by_cases hd : dist a.pos (d.x, d.y) < 14
    · simp only [hitDangers, if_pos hd, hazardLoss_cons_hit a d rest hd, ih]
      ring
    · simp only [hitDangers, if_neg hd, hazardLoss_cons_miss a d rest hd, ih]

lemma hitDangers_sublist (a : Agent) (sc : ℝ) (g : Rng) : ∀ ds : List Danger,
    List.Sublist (hitDangers a sc g ds).2.2.1 ds := by
  intro ds
  induction ds with
  | nil => simp [hitDangers]
  | cons d rest ih =>
    by_cases hd : dist a.pos (d.x, d.y) < 14
    · simp only [hitDangers, if_pos hd]
      by_cases hr : (randomDraw (hitDangers a sc g rest).2.2.2).1 < 0.06
      · simp only [if_pos hr]
        exact ih.cons d
      · simp only [if_neg hr]
        exact ih.cons₂ d
    · simp only [hitDangers, if_neg hd]
      exact ih.cons₂ d

lemma hitDangers_keeps_unhit (a : Agent) (sc : ℝ) (g : Rng) : ∀ ds : List Danger,
    ((hitDangers a sc g ds).2.2.1.filter fun d => decide (14 ≤ dist a.pos (d.x, d.y)))
      = ds.filter fun d => decide (14 ≤ dist a.pos (d.x, d.y)) := by
  intro ds
  induction ds with
  | nil => simp [hitDangers]
  | cons d rest ih =>
    by_cases hd : dist a.pos (d.x, d.y) < 14
    · have hd2 : ¬ (14 ≤ dist a.pos (d.x, d.y)) := not_le.mpr hd
      simp only [hitDangers, if_pos hd]
      by_cases hr : (randomDraw (hitDangers a sc g rest).2.2.2).1 < 0.06
      · simp only [if_pos hr, ih, List.filter_cons]
        simp [hd2]
      · simp only [if_neg hr, List.filter_cons]
        simp [hd2, ih]
    · have hd2 : 14 ≤ dist a.pos (d.x, d.y) := not_lt.mp hd
      simp only [hitDangers, if_neg hd, List.filter_cons]
      simp [hd2, ih]

/-- Example agent sitting at the origin. -/
def aEx : Agent :=
  { x := 0, y := 0, vx := 0, vy := 0, type := AgentType.explorer, wobble := 0, score := 0 }

/-- Example danger five units away from `aEx` — a contact (distance 5 < 14). -/
def dEx : Danger := { x := 5, y := 0, severity := 2, mobile := false, vx := 0, vy := 0 }

lemma dist_aEx_dEx : dist aEx.pos (dEx.x, dEx.y) = 5 := by
  have h25 : ((0:ℝ) - 5) ^ 2 + ((0:ℝ) - 0) ^ 2 = 5 ^ 2 := by norm_num
  simp only [dist, aEx, dEx, Agent.pos]
  rw [h25, Real.sqrt_sq (by norm_num : (0:ℝ) ≤ 5)]

/-- C3: resolving collisions — every food within distance 14 of the moved
agent adds its value to the agent's (and the global) score and is removed
from the world; every danger within distance 14 subtracts its severity, and
is removed only when the extra `Math.random()` draw falls below 0.06, so a
contacted hazard may survive (final two conjuncts: the same contact removes
the hazard under one stream and keeps it under another). -/
theorem collision_resolution (a : Agent) (sc : ℝ) (fs : List Food)
    (ds : List Danger) (g : Rng) :
    ((collectFoods a sc fs).1.score = a.score + collectGain a fs
      ∧ (collectFoods a sc fs).2.1 = sc + collectGain a fs
      ∧ (collectFoods a sc fs).2.2
          = fs.filter fun f => decide (14 ≤ dist a.pos (f.x, f.y)))
    ∧ ((hitDangers a sc g ds).1.score = a.score - hazardLoss a ds
      ∧ (hitDangers a sc g ds).2.1 = sc - hazardLoss a ds
      ∧ List.Sublist (hitDangers a sc g ds).2.2.1 ds
      ∧ ((hitDangers a sc g ds).2.2.1.filter
            fun d => decide (14 ≤ dist a.pos (d.x, d.y)))
          = (ds.filter fun d => decide (14 ≤ dist a.pos (d.x, d.y))))
    ∧ dist aEx.pos (dEx.x, dEx.y) < 14
    ∧ (hitDangers aEx 0 gZero [dEx]).2.2.1 = []
    ∧ (hitDangers aEx 0 gHalf [dEx]).2.2.1 = [dEx] := by
  refine ⟨⟨collectFoods_agent_score a sc fs, collectFoods_global_score a sc fs,
    collectFoods_foods a sc fs⟩,
    ⟨hitDangers_agent_score a sc g ds, hitDangers_global_score a sc g ds,
    hitDangers_sublist a sc g ds, hitDangers_keeps_unhit a sc g ds⟩,
    by rw [dist_aEx_dEx]; norm_num, ?_, ?_⟩
  · have h5 : dist aEx.pos (dEx.x, dEx.y) < 14 := by rw [dist_aEx_dEx]; norm_num
    simp only [hitDangers, if_pos h5, randomDraw, gZero]
    norm_num
  · have h5 : dist aEx.pos (dEx.x, dEx.y) < 14 := by rw [dist_aEx_dEx]; norm_num
    simp only [hitDangers, if_pos h5, randomDraw, gHalf]
    norm_num

lemma agentSteer_frame (a : Agent) (fs : List Food) (ds : List Danger) (g : Rng) :
    (agentSteer a fs ds g).1.score = a.score
    ∧ (agentSteer a fs ds g).1.x = a.x
    ∧ (agentSteer a fs ds g).1.y = a.y := by
  obtain ⟨ax, ay, avx, avy, ty, wb, sc0⟩ := a
  cases ty with
  | greedy =>
    simp only [agentSteer]
    cases bestFood ⟨ax, ay, avx, avy, AgentType.greedy, wb, sc0⟩ fs <;> simp
  | cautious =>
    cases hn : nearestDanger ⟨ax, ay, avx, avy, AgentType.cautious, wb, sc0⟩ ds with
    | none => by_cases hf : fs.length ≠ 0 <;> simp [agentSteer, hn, hf]
    | some np =>
      by_cases h120 : np.2 < 120 <;> by_cases hf : fs.length ≠ 0 <;>
        simp [agentSteer, hn, h120, hf]
  | explorer => simp [agentSteer]

lemma dampMove_score (w h : ℝ) (a : Agent) : (dampMove w h a).score = a.score := rfl

lemma dampMove_x (w h : ℝ) (a : Agent) :
    (dampMove w h a).x = clamp (a.x + a.vx * 0.98) 12 (w - 12) := rfl

lemma dampMove_y (w h : ℝ) (a : Agent) :
    (dampMove w h a).y = clamp (a.y + a.vy * 0.98) 12 (h - 12) := rfl

lemma hazardLoss_pos_eq (a b : Agent) (hx : a.x = b.x) (hy : a.y = b.y)
    (ds : List Danger) : hazardLoss a ds = hazardLoss b ds := by
  simp [hazardLoss, Agent.pos, hx, hy]

lemma stepAgent_score (w h : ℝ) (a : Agent) (fs : List Food) (ds : List Danger)
    (sc : ℝ) (g : Rng) :
    (stepAgent w h a fs ds sc g).1.score
      = a.score + collectGain (dampMove w h (agentSteer a fs ds g).1) fs
        - hazardLoss (dampMove w h (agentSteer a fs ds g).1) ds := by
  have hsteer := agentSteer_frame a fs ds g
  set a1 := (agentSteer a fs ds g).1 with ha1
  set a2 := dampMove w h a1 with ha2
  have hx : (collectFoods a2 sc fs).1.x = a2.x := collectFoods_agent_x a2 sc fs
  have hy : (collectFoods a2 sc fs).1.y = a2.y := collectFoods_agent_y a2 sc fs
  have hloss : hazardLoss (collectFoods a2 sc fs).1 ds = hazardLoss a2 ds :=
    hazardLoss_pos_eq _ _ hx hy ds
  show (hitDangers (collectFoods a2 sc fs).1 (collectFoods a2 sc fs).2.1
      (agentSteer a fs ds g).2 ds).1.score = a.score + collectGain a2 fs - hazardLoss a2 ds
  rw [hitDangers_agent_score, hloss, collectFoods_agent_score]
  have : a2.score = a.score := by
    rw [ha2, dampMove_score, ha1, hsteer.1]
  rw [this]

/-- The sequence of (agent, foods, dangers, global score, rng) states at
which each agent of the tick's loop takes its turn. -/
noncomputable def tickTrace (w h : ℝ) :
    List Agent → List Food → List Danger → ℝ → Rng →
    List (Agent × List Food × List Danger × ℝ × Rng)
  | [], _, _, _, _ => []
  | a :: rest, fs, ds, sc, g =>
    (a, fs, ds, sc, g) ::
      (tickTrace w h rest (stepAgent w h a fs ds sc g).2.1
        (stepAgent w h a fs ds sc g).2.2.1 (stepAgent w h a fs ds sc g).2.2.2.1
        (stepAgent w h a fs ds sc g).2.2.2.2)

lemma stepAgents_eq_trace (w h : ℝ) : ∀ (as : List Agent) (fs : List Food)
    (ds : List Danger) (sc : ℝ) (g : Rng),
    (stepAgents w h as fs ds sc g).1
      = (tickTrace w h as fs ds sc g).map
          (fun e => (stepAgent w h e.1 e.2.1 e.2.2.1 e.2.2.2.1 e.2.2.2.2).1) := by
  intro as
  induction as with
  | nil => intro fs ds sc g; simp [stepAgents, tickTrace]
  | cons a rest ih =>
    intro fs ds sc g
    simp only [stepAgents, tickTrace, List.map_cons, ih]

lemma spawnAgents_score_zero (w h : ℝ) (ty : AgentType) : ∀ (n : ℕ) (g : Rng),
    ∀ a ∈ (spawnAgents w h ty n g).1, a.score = 0 := by
  intro n
  induction n with
  | zero => intro g a ha; simp [spawnAgents] at ha
  | succ k ih =>
    intro g a ha
    simp only [spawnAgents, List.mem_cons] at ha
    rcases ha with h | h
    · rw [h]; rfl
    · exact ih _ a h

lemma spawnAll_score_zero (w h : ℝ) (c : Config) (g : Rng) :
    ∀ a ∈ (spawnAll w h c g).1.agents, a.score = 0 := by
  intro a ha
  simp only [spawnAll, List.mem_append] at ha
  rcases ha with (hm | hm) | hm
  · exact spawnAgents_score_zero w h AgentType.greedy _ _ a hm
  · exact spawnAgents_score_zero w h AgentType.cautious _ _ a hm
  · exact spawnAgents_score_zero w h AgentType.explorer _ _ a hm

/-- C4: every agent's cumulative score changes only through resource
collection (adding the collected values) and hazard contact (subtracting
the contacted severities): steering and movement never touch the score,
one loop turn changes it by exactly `+ collected − contacted`, the tick
maps each agent through exactly one such turn, and a freshly spawned agent
starts at score 0. -/
theorem score_frame_property (w h : ℝ) (a : Agent) (fs : List Food)
    (ds : List Danger) (sc : ℝ) (g : Rng) (s : SimState) (c : Config) :
    (agentSteer a fs ds g).1.score = a.score
    ∧ (dampMove w h a).score = a.score
    ∧ (stepAgent w h a fs ds sc g).1.score
        = a.score + collectGain (dampMove w h (agentSteer a fs ds g).1) fs
          - hazardLoss (dampMove w h (agentSteer a fs ds g).1) ds
    ∧ (stepOnce s g).1.agents
        = (tickTrace s.w s.h s.agents (s.foods.map (moveFood s.w s.h))
            (s.dangers.map (moveDanger s.w s.h)) s.score g).map
            (fun e => (stepAgent s.w s.h e.1 e.2.1 e.2.2.1 e.2.2.2.1 e.2.2.2.2).1)
    ∧ (∀ a2 ∈ (spawnAll w h c g).1.agents, a2.score = 0) := by
  refine ⟨(agentSteer_frame a fs ds g).1, dampMove_score w h a,
    stepAgent_score w h a fs ds sc g, ?_, spawnAll_score_zero w h c g⟩
  show (stepAgents s.w s.h s.agents _ _ s.score g).1 = _
  exact stepAgents_eq_trace s.w s.h s.agents _ _ s.score g

/-!  C5: agents stay within the world after every tick. -/

lemma clamp_bounds (v lo hi : ℝ) (hlohi : lo ≤ hi) :
    lo ≤ clamp v lo hi ∧ clamp v lo hi ≤ hi :=
  ⟨le_max_left lo (min hi v), max_le hlohi (min_le_left hi v)⟩

lemma stepAgent_x (w h : ℝ) (a : Agent) (fs : List Food) (ds : List Danger)
    (sc : ℝ) (g : Rng) :
    (stepAgent w h a fs ds sc g).1.x
      = clamp ((agentSteer a fs ds g).1.x + (agentSteer a fs ds g).1.vx * 0.98)
          12 (w - 12) := by
  show (hitDangers _ _ _ ds).1.x = _
  rw [hitDangers_agent_x, collectFoods_agent_x, dampMove_x]

lemma stepAgent_y (w h : ℝ) (a : Agent) (fs : List Food) (ds : List Danger)
    (sc : ℝ) (g : Rng) :
    (stepAgent w h a fs ds sc g).1.y
      = clamp ((agentSteer a fs ds g).1.y + (agentSteer a fs ds g).1.vy * 0.98)
          12 (h - 12) := by
  show (hitDangers _ _ _ ds).1.y = _
  rw [hitDangers_agent_y, collectFoods_agent_y, dampMove_y]

lemma stepAgents_mem_shape (w h : ℝ) : ∀ (as : List Agent) (fs : List Food)
    (ds : List Danger) (sc : ℝ) (g : Rng) (a2 : Agent),
    a2 ∈ (stepAgents w h as fs ds sc g).1 →
    ∃ a0 fs0 ds0 sc0 g0, a2 = (stepAgent w h a0 fs0 ds0 sc0 g0).1 := by
  intro as
  induction as with
  | nil => intro fs ds sc g a2 ha; simp [stepAgents] at ha
  | cons a rest ih =>
    intro fs ds sc g a2 ha
    simp only [stepAgents, List.mem_cons] at ha
    rcases ha with hh | hh
    · exact ⟨a, fs, ds, sc, g, hh⟩
    · exact ih _ _ _ _ a2 hh

/-- C5: after every tick, each agent's coordinates are clamped into
`[12, w-12] × [12, h-12]`, so (for any world at least 24 wide and tall) an
agent always ends the tick inside the world `[0,w] × [0,h]`, wherever it
started. -/
theorem agents_clamped_within_bounds (s : SimState) (g : Rng)
    (hw : 24 ≤ s.w) (hh : 24 ≤ s.h) :
    ∀ a2 ∈ (stepOnce s g).1.agents,
      (12 ≤ a2.x ∧ a2.x ≤ s.w - 12 ∧ 12 ≤ a2.y ∧ a2.y ≤ s.h - 12)
      ∧ (0 ≤ a2.x ∧ a2.x ≤ s.w ∧ 0 ≤ a2.y ∧ a2.y ≤ s.h) := by
  intro a2 ha2
  have hmem : a2 ∈ (stepAgents s.w s.h s.agents (s.foods.map (moveFood s.w s.h))
      (s.dangers.map (moveDanger s.w s.h)) s.score g).1 := ha2
  obtain ⟨a0, fs0, ds0, sc0, g0, hshape⟩ :=
    stepAgents_mem_shape s.w s.h _ _ _ _ _ a2 hmem
  have hxw : (12 : ℝ) ≤ s.w - 12 := by linarith
  have hyh : (12 : ℝ) ≤ s.h - 12 := by linarith
  have hx := clamp_bounds ((agentSteer a0 fs0 ds0 g0).1.x
    + (agentSteer a0 fs0 ds0 g0).1.vx * 0.98) 12 (s.w - 12) hxw
  have hy := clamp_bounds ((agentSteer a0 fs0 ds0 g0).1.y
    + (agentSteer a0 fs0 ds0 g0).1.vy * 0.98) 12 (s.h - 12) hyh
  rw [hshape, stepAgent_x, stepAgent_y]
  refine ⟨⟨hx.1, hx.2, hy.1, hy.2⟩, ?_⟩
  refine ⟨by linarith [hx.1], by linarith [hx.2], by linarith [hy.1], by linarith [hy.2]⟩

/-- Tiny concrete world used by the C5 witness. -/
def sEx : SimState :=
  { agents := [aEx], foods := [], dangers := [], tick := 0, score := 0,
    w := 400, h := 360 }

/-- C5 witness: the bounds theorem applied to a concrete world. -/
theorem agents_clamped_within_bounds_witness :
    (24 : ℝ) ≤ sEx.w ∧ (24 : ℝ) ≤ sEx.h ∧
    ∀ a2 ∈ (stepOnce sEx gZero).1.agents,
      (12 ≤ a2.x ∧ a2.x ≤ sEx.w - 12 ∧ 12 ≤ a2.y ∧ a2.y ≤ sEx.h - 12)
      ∧ (0 ≤ a2.x ∧ a2.x ≤ sEx.w ∧ 0 ≤ a2.y ∧ a2.y ≤ sEx.h) :=
  ⟨by norm_num [sEx], by norm_num [sEx],
    agents_clamped_within_bounds sEx gZero (by norm_num [sEx]) (by norm_num [sEx])⟩

/-!  C6: passive motion of mobile items — advance, reflect, stay in world. -/

/-- Inductive invariant for one axis of the bounce update: the item sits no
deeper than `2|v|` inside the reflection band (which starts 20 units from
either world edge), and when it is inside the band it is moving back out. -/
def bounceInv (w x v : ℝ) : Prop :=
  (20 - 2 * |v| ≤ x ∧ x ≤ w - 20 + 2 * |v|)
  ∧ (x < 20 - |v| → 0 < v)
  ∧ (w - 20 + |v| < x → v < 0)

lemma bounce_step (w x v : ℝ) (hv : |v| ≤ 1) (hw : 44 ≤ w) (hJ : bounceInv w x v) :
    bounceInv w (x + v) (if x + v < 20 ∨ x + v > w - 20 then -v else v)
    ∧ 0 ≤ x + v ∧ x + v ≤ w := by
  obtain ⟨⟨h1a, h1b⟩, h2, h3⟩ := hJ
  have hva : -|v| ≤ v := neg_abs_le v
  have hvb : v ≤ |v| := le_abs_self v
  have hvnn : 0 ≤ |v| := abs_nonneg v
  refine ⟨?_, by linarith, by linarith⟩
  by_cases hC : x + v < 20 ∨ x + v > w - 20
  · rw [if_pos hC]
    simp only [bounceInv, abs_neg]
    rcases hC with hlow | hhigh
    · refine ⟨⟨?_, by linarith⟩, ?_, ?_⟩
      · by_cases hx : 20 - |v| ≤ x
        · linarith
        · have hp := h2 (by linarith)
          have hav : |v| = v := abs_of_pos hp
          linarith
      · intro hx'
        by_contra hnot
        push_neg at hnot
        have hv0 : 0 ≤ v := by linarith
        have hav : |v| = v := abs_of_nonneg hv0
        linarith
      · intro hx'
        exfalso
        linarith
    · refine ⟨⟨by linarith, ?_⟩, ?_, ?_⟩
      · by_cases hx : x ≤ w - 20 + |v|
        · linarith
        · have hp := h3 (by linarith)
          have hav : |v| = -v := abs_of_neg hp
          linarith
      · intro hx'
        exfalso
        linarith
      · intro hx'
        by_contra hnot
        push_neg at hnot
        have hv0 : v ≤ 0 := by linarith
        have hav : |v| = -v := abs_of_nonpos hv0
        linarith
  · rw [if_neg hC]
    simp only [bounceInv]
    push_neg at hC
    obtain ⟨hge, hle⟩ := hC
    refine ⟨⟨by linarith, by linarith⟩, ?_, ?_⟩
    · intro hx'; exfalso; linarith
    · intro hx'; exfalso; linarith

lemma bounceInv_of_interior (w x v : ℝ) (hx : 40 ≤ x) (hx2 : x ≤ w - 40) :
    bounceInv w x v := by
  have hvnn : 0 ≤ |v| := abs_nonneg v
  simp only [bounceInv]
  exact ⟨⟨by linarith, by linarith⟩,
    fun hc => absurd hc (not_lt.mpr (by linarith)),
    fun hc => absurd hc (not_lt.mpr (by linarith))⟩

lemma moveFood_eval (w h : ℝ) (f : Food) (hm : f.mobile = true) :
    moveFood w h f = { f with
      x := f.x + f.vx
      y := f.y + f.vy
      vx := if f.x + f.vx < 20 ∨ f.x + f.vx > w - 20 then -f.vx else f.vx
      vy := if f.y + f.vy < 20 ∨ f.y + f.vy > h - 20 then -f.vy else f.vy } := by
  simp [moveFood, hm]

lemma moveDanger_eval (w h : ℝ) (d : Danger) (hm : d.mobile = true) :
    moveDanger w h d = { d with
      x := d.x + d.vx
      y := d.y + d.vy
      vx := if d.x + d.vx < 20 ∨ d.x + d.vx > w - 20 then -d.vx else d.vx
      vy := if d.y + d.vy < 20 ∨ d.y + d.vy > h - 20 then -d.vy else d.vy } := by
  simp [moveDanger, hm]

lemma ifFlip_abs (c : Prop) [Decidable c] (v : ℝ) :
    |if c then -v else v| = |v| := by
  split_ifs <;> simp

lemma validRng_randomDraw (g : Rng) (hg : ValidRng g) : ValidRng (randomDraw g).2 :=
  fun n => hg (n + 1)

lemma validRng_rand (lo hi : ℝ) (g : Rng) (hg : ValidRng g) : ValidRng (rand lo hi g).2 :=
  fun n => hg (n + 1)

lemma rand_mem (lo hi : ℝ) (g : Rng) (hg : ValidRng g) (hlohi : lo ≤ hi) :
    lo ≤ (rand lo hi g).1 ∧ (rand lo hi g).1 ≤ hi := by
  have h0 := hg 0
  simp only [rand, randomDraw]
  constructor
  · nlinarith [h0.1, h0.2]
  · nlinarith [h0.1, h0.2]

lemma validRng_newAgent (w h : ℝ) (ty : AgentType) (g : Rng) (hg : ValidRng g) :
    ValidRng (newAgent w h ty g).2 := by
  simp only [newAgent]
  exact validRng_randomDraw _ (validRng_rand _ _ _ (validRng_rand _ _ _
    (validRng_rand _ _ _ (validRng_rand _ _ _ hg))))

lemma validRng_spawnAgents (w h : ℝ) (ty : AgentType) : ∀ (n : ℕ) (g : Rng),
    ValidRng g → ValidRng (spawnAgents w h ty n g).2 := by
  intro n
  induction n with
  | zero => intro g hg; exact hg
  | succ k ih =>
    intro g hg
    exact ih _ (validRng_newAgent w h ty g hg)

lemma validRng_spawnFoods (w h : ℝ) : ∀ (n i : ℕ) (g : Rng),
    ValidRng g → ValidRng (spawnFoods w h i n g).2 := by
  intro n
  induction n with
  | zero => intro i g hg; exact hg
  | succ k ih =>
    intro i g hg
    exact ih _ _ (validRng_rand _ _ _ (validRng_rand _ _ _ (validRng_randomDraw _
      (validRng_rand _ _ _ (validRng_rand _ _ _ hg)))))

lemma spawnFoods_inv (w h : ℝ) (hw : 84 ≤ w) (hh : 84 ≤ h) : ∀ (n i : ℕ) (g : Rng),
    ValidRng g → ∀ f ∈ (spawnFoods w h i n g).1,
      bounceInv w f.x f.vx ∧ bounceInv h f.y f.vy ∧ |f.vx| ≤ 1 ∧ |f.vy| ≤ 1 := by
  intro n
  induction n with
  | zero => intro i g hg f hf; simp [spawnFoods] at hf
  | succ k ih =>
    intro i g hg f hf
    simp only [spawnFoods, List.mem_cons] at hf
    have hg1 : ValidRng (rand 40 (w - 40) g).2 := validRng_rand _ _ _ hg
    have hg2 : ValidRng (rand 40 (h - 40) (rand 40 (w - 40) g).2).2 :=
      validRng_rand _ _ _ hg1
    have hg3 : ValidRng (randomDraw (rand 40 (h - 40) (rand 40 (w - 40) g).2).2).2 :=
      validRng_randomDraw _ hg2
    have hg4 : ValidRng (rand (-0.5) 0.5
        (randomDraw (rand 40 (h - 40) (rand 40 (w - 40) g).2).2).2).2 :=
      validRng_rand _ _ _ hg3
    rcases hf with hf | hf
    · subst hf
      have hx := rand_mem 40 (w - 40) g hg (by linarith)
      have hy := rand_mem 40 (h - 40) _ hg1 (by linarith)
      have hvx := rand_mem (-0.5) 0.5 _ hg3 (by norm_num)
      have hvy := rand_mem (-0.5) 0.5 _ hg4 (by norm_num)
      refine ⟨?_, ?_, ?_, ?_⟩
      · exact bounceInv_of_interior w _ _ hx.1 hx.2
      · exact bounceInv_of_interior h _ _ hy.1 hy.2
      · rw [abs_le]
        exact ⟨by linarith [hvx.1], by linarith [hvx.2]⟩
      · rw [abs_le]
        exact ⟨by linarith [hvy.1], by linarith [hvy.2]⟩
    · exact ih _ _ (validRng_rand _ _ _ hg4) f hf

lemma spawnDangers_inv (w h : ℝ) (hw : 84 ≤ w) (hh : 84 ≤ h) : ∀ (n i : ℕ) (g : Rng),
    ValidRng g → ∀ d ∈ (spawnDangers w h i n g).1,
      bounceInv w d.x d.vx ∧ bounceInv h d.y d.vy ∧ |d.vx| ≤ 1 ∧ |d.vy| ≤ 1 := by
  intro n
  induction n with
  | zero => intro i g hg d hd; simp [spawnDangers] at hd
  | succ k ih =>
    intro i g hg d hd
    simp only [spawnDangers, List.mem_cons] at hd
    have hg1 : ValidRng (rand 40 (w - 40) g).2 := validRng_rand _ _ _ hg
    have hg2 : ValidRng (rand 40 (h - 40) (rand 40 (w - 40) g).2).2 :=
      validRng_rand _ _ _ hg1
    have hg3 : ValidRng (randomDraw (rand 40 (h - 40) (rand 40 (w - 40) g).2).2).2 :=
      validRng_randomDraw _ hg2
    have hg4 : ValidRng (rand (-0.6) 0.6
        (randomDraw (rand 40 (h - 40) (rand 40 (w - 40) g).2).2).2).2 :=
      validRng_rand _ _ _ hg3
    rcases hd with hd | hd
    · subst hd
      have hx := rand_mem 40 (w - 40) g hg (by linarith)
      have hy := rand_mem 40 (h - 40) _ hg1 (by linarith)
      have hvx := rand_mem (-0.6) 0.6 _ hg3 (by norm_num)
      have hvy := rand_mem (-0.6) 0.6 _ hg4 (by norm_num)
      refine ⟨?_, ?_, ?_, ?_⟩
      · exact bounceInv_of_interior w _ _ hx.1 hx.2
      · exact bounceInv_of_interior h _ _ hy.1 hy.2
      · rw [abs_le]
        exact ⟨by linarith [hvx.1], by linarith [hvx.2]⟩
      · rw [abs_le]
        exact ⟨by linarith [hvy.1], by linarith [hvy.2]⟩
    · exact ih _ _ (validRng_rand _ _ _ hg4) d hd

lemma spawnAll_items_inv (w h : ℝ) (c : Config) (g : Rng) (hg : ValidRng g)
    (hw : 84 ≤ w) (hh : 84 ≤ h) :
    (∀ f ∈ (spawnAll w h c g).1.foods,
      bounceInv w f.x f.vx ∧ bounceInv h f.y f.vy ∧ |f.vx| ≤ 1 ∧ |f.vy| ≤ 1)
    ∧ (∀ d ∈ (spawnAll w h c g).1.dangers,
      bounceInv w d.x d.vx ∧ bounceInv h d.y d.vy ∧ |d.vx| ≤ 1 ∧ |d.vy| ≤ 1) := by
  constructor
  · intro f hf
    simp only [spawnAll] at hf
    exact spawnFoods_inv w h hw hh _ _ _
      (validRng_spawnAgents w h _ _ _ (validRng_spawnAgents w h _ _ _
        (validRng_spawnAgents w h _ _ _ hg))) f hf
  · intro d hd
    simp only [spawnAll] at hd
    exact spawnDangers_inv w h hw hh _ _ _
      (validRng_spawnFoods w h _ _ _ (validRng_spawnAgents w h _ _ _
        (validRng_spawnAgents w h _ _ _ (validRng_spawnAgents w h _ _ _ hg)))) d hd

/-- C6: passive motion of mobile items.  A mobile food or danger advances by
exactly its velocity; its speed never changes (at most the sign of a
velocity component flips, and it flips exactly when the moved position
enters the reflection band); a non-mobile item is untouched; and — given
the invariant `bounceInv` that `spawnAll` establishes for every spawned
item (last conjunct) — the moved position always stays inside the world
`[0,w] × [0,h]` and the invariant is preserved, so mobile items remain in
the world for the whole run. -/
theorem mobile_items_reflect_and_stay_bounded (w h : ℝ) (f : Food) (d : Danger)
    (c : Config) (g : Rng) :
    (f.mobile = true →
      (moveFood w h f).x = f.x + f.vx ∧ (moveFood w h f).y = f.y + f.vy
      ∧ |(moveFood w h f).vx| = |f.vx| ∧ |(moveFood w h f).vy| = |f.vy|
      ∧ (moveFood w h f).vx
          = (if f.x + f.vx < 20 ∨ f.x + f.vx > w - 20 then -f.vx else f.vx)
      ∧ (moveFood w h f).vy
          = (if f.y + f.vy < 20 ∨ f.y + f.vy > h - 20 then -f.vy else f.vy))
    ∧ (f.mobile = false → moveFood w h f = f)
    ∧ (f.mobile = true → 44 ≤ w → 44 ≤ h → |f.vx| ≤ 1 → |f.vy| ≤ 1 →
        bounceInv w f.x f.vx → bounceInv h f.y f.vy →
        bounceInv w (moveFood w h f).x (moveFood w h f).vx
        ∧ bounceInv h (moveFood w h f).y (moveFood w h f).vy
        ∧ 0 ≤ (moveFood w h f).x ∧ (moveFood w h f).x ≤ w
        ∧ 0 ≤ (moveFood w h f).y ∧ (moveFood w h f).y ≤ h)
    ∧ (d.mobile = true →
      (moveDanger w h d).x = d.x + d.vx ∧ (moveDanger w h d).y = d.y + d.vy
      ∧ |(moveDanger w h d).vx| = |d.vx| ∧ |(moveDanger w h d).vy| = |d.vy|
      ∧ (moveDanger w h d).vx
          = (if d.x + d.vx < 20 ∨ d.x + d.vx > w - 20 then -d.vx else d.vx)
      ∧ (moveDanger w h d).vy
          = (if d.y + d.vy < 20 ∨ d.y + d.vy > h - 20 then -d.vy else d.vy))
    ∧ (d.mobile = false → moveDanger w h d = d)
    ∧ (d.mobile = true → 44 ≤ w → 44 ≤ h → |d.vx| ≤ 1 → |d.vy| ≤ 1 →
        bounceInv w d.x d.vx → bounceInv h d.y d.vy →
        bounceInv w (moveDanger w h d).x (moveDanger w h d).vx
        ∧ bounceInv h (moveDanger w h d).y (moveDanger w h d).vy
        ∧ 0 ≤ (moveDanger w h d).x ∧ (moveDanger w h d).x ≤ w
        ∧ 0 ≤ (moveDanger w h d).y ∧ (moveDanger w h d).y ≤ h)
    ∧ (ValidRng g → 84 ≤ w → 84 ≤ h →
        (∀ f2 ∈ (spawnAll w h c g).1.foods,
          bounceInv w f2.x f2.vx ∧ bounceInv h f2.y f2.vy ∧ |f2.vx| ≤ 1 ∧ |f2.vy| ≤ 1)
        ∧ (∀ d2 ∈ (spawnAll w h c g).1.dangers,
          bounceInv w d2.x d2.vx ∧ bounceInv h d2.y d2.vy
          ∧ |d2.vx| ≤ 1 ∧ |d2.vy| ≤ 1)) := by
  refine ⟨?_, ?_, ?_, ?_, ?_, ?_, ?_⟩
  · intro hm
    rw [moveFood_eval w h f hm]
    exact ⟨rfl, rfl, ifFlip_abs _ _, ifFlip_abs _ _, rfl, rfl⟩
  · intro hm
    simp [moveFood, hm]
  · intro hm hw hh hvx hvy hJx hJy
    rw [moveFood_eval w h f hm]
    obtain ⟨hbx, hpx1, hpx2⟩ := bounce_step w f.x f.vx hvx hw hJx
    obtain ⟨hby, hpy1, hpy2⟩ := bounce_step h f.y f.vy hvy hh hJy
    exact ⟨hbx, hby, hpx1, hpx2, hpy1, hpy2⟩
  · intro hm
    rw [moveDanger_eval w h d hm]
    exact ⟨rfl, rfl, ifFlip_abs _ _, ifFlip_abs _ _, rfl, rfl⟩
  · intro hm
    simp [moveDanger, hm]
  · intro hm hw hh hvx hvy hJx hJy
    rw [moveDanger_eval w h d hm]
    obtain ⟨hbx, hpx1, hpx2⟩ := bounce_step w d.x d.vx hvx hw hJx
    obtain ⟨hby, hpy1, hpy2⟩ := bounce_step h d.y d.vy hvy hh hJy
    exact ⟨hbx, hby, hpx1, hpx2, hpy1, hpy2⟩
  · intro hg hw hh
    exact spawnAll_items_inv w h c g hg hw hh

/-- A mobile example food used by the C6 witness. -/
noncomputable def fMobEx : Food := { x := 100, y := 100, value := 10, mobile := true, vx := 1/2, vy := -(1/2) }

/-- A mobile example danger used by the C6 witness. -/
noncomputable def dMobEx : Danger := { x := 50, y := 300, severity := 6, mobile := true, vx := -(1/2), vy := 1/2 }

/-- C6 witness: the passive-motion theorem applied to concrete mobile items
in a concrete world, with every hypothesis discharged. -/
theorem mobile_items_reflect_witness :
    bounceInv 400 (moveFood 400 360 fMobEx).x (moveFood 400 360 fMobEx).vx
    ∧ bounceInv 360 (moveFood 400 360 fMobEx).y (moveFood 400 360 fMobEx).vy
    ∧ 0 ≤ (moveFood 400 360 fMobEx).x ∧ (moveFood 400 360 fMobEx).x ≤ 400
    ∧ 0 ≤ (moveFood 400 360 fMobEx).y ∧ (moveFood 400 360 fMobEx).y ≤ 360 := by
  have habs : |(1/2 : ℝ)| = 1/2 := abs_of_pos (by norm_num)
  have habsn : |(-(1/2) : ℝ)| = 1/2 := by rw [abs_neg, habs]
  refine (mobile_items_reflect_and_stay_bounded 400 360 fMobEx dMobEx
    cfgOneExplorer gHalf).2.2.1 rfl (by norm_num) (by norm_num) ?_ ?_ ?_ ?_
  · show |fMobEx.vx| ≤ 1
    rw [show fMobEx.vx = 1/2 from rfl, habs]; norm_num
  · show |fMobEx.vy| ≤ 1
    rw [show fMobEx.vy = -(1/2) from rfl, habsn]; norm_num
  · exact bounceInv_of_interior 400 fMobEx.x fMobEx.vx (by norm_num [fMobEx]) (by norm_num [fMobEx])
  · exact bounceInv_of_interior 360 fMobEx.y fMobEx.vy (by norm_num [fMobEx]) (by norm_num [fMobEx])

/-!  C7: the greedy strategy. -/

/-- The greedy selection score of a food: `f.value - dist(a,f)*0.02`. -/
noncomputable def foodScore (a : Agent) (f : Food) : ℝ :=
  f.value - dist a.pos (f.x, f.y) * 0.02

lemma bestFood_go (a : Agent) : ∀ (fs : List Food) (bp : Food × ℝ),
    ∃ bq, List.foldl (bestStep a) (some bp) fs = some bq
      ∧ (bq = bp ∨ (bq.1 ∈ fs ∧ bq.2 = foodScore a bq.1))
      ∧ bp.2 ≤ bq.2
      ∧ ∀ f ∈ fs, foodScore a f ≤ bq.2 := by
  intro fs
  induction fs with
  | nil =>
    intro bp
    exact ⟨bp, rfl, Or.inl rfl, le_refl _, by simp⟩
  | cons f rest ih =>
    intro bp
    simp only [List.foldl_cons]
    by_cases hgt : f.value - dist a.pos (f.x, f.y) * 0.02 > bp.2
    · rw [show bestStep a (some bp) f = some (f, f.value - dist a.pos (f.x, f.y) * 0.02)
        from by simp [bestStep, hgt]]
      obtain ⟨bq, hfold, hsrc, hle, hmax⟩ :=
        ih (f, f.value - dist a.pos (f.x, f.y) * 0.02)
      refine ⟨bq, hfold, ?_, ?_, ?_⟩
      · rcases hsrc with hq | hq
        · refine Or.inr ⟨?_, ?_⟩
          · rw [hq]
            exact List.mem_cons_self f rest
          · rw [hq]
            rfl
        · exact Or.inr ⟨List.mem_cons_of_mem f hq.1, hq.2⟩
      · exact le_trans (le_of_lt hgt) hle
      · intro f2 hf2
        rcases List.mem_cons.mp hf2 with hh | hh
        · rw [hh]
          exact hle
        · exact hmax f2 hh
    · rw [show bestStep a (some bp) f = some bp from by simp [bestStep, hgt]]
      push_neg at hgt
      obtain ⟨bq, hfold, hsrc, hle, hmax⟩ := ih bp
      refine ⟨bq, hfold, ?_, hle, ?_⟩
      · rcases hsrc with hq | hq
        · exact Or.inl hq
        · exact Or.inr ⟨List.mem_cons_of_mem f hq.1, hq.2⟩
      · intro f2 hf2
        rcases List.mem_cons.mp hf2 with hh | hh
        · rw [hh]
          exact le_trans hgt hle
        · exact hmax f2 hh

lemma bestFood_spec (a : Agent) (fs : List Food) (hfs : fs ≠ []) :
    ∃ bq, bestFood a fs = some bq ∧ bq.1 ∈ fs ∧ bq.2 = foodScore a bq.1
      ∧ ∀ f ∈ fs, foodScore a f ≤ bq.2 := by
  cases fs with
  | nil => exact absurd rfl hfs
  | cons f rest =>
    have hstep : bestStep a none f = some (f, f.value - dist a.pos (f.x, f.y) * 0.02) := rfl
    obtain ⟨bq, hfold, hsrc, hle, hmax⟩ :=
      bestFood_go a rest (f, f.value - dist a.pos (f.x, f.y) * 0.02)
    refine ⟨bq, ?_, ?_, ?_, ?_⟩
    · show List.foldl (bestStep a) none (f :: rest) = some bq
      rw [List.foldl_cons, hstep]
      exact hfold
    · rcases hsrc with hq | hq
      · rw [hq]
        exact List.mem_cons_self f rest
      · exact List.mem_cons_of_mem f hq.1
    · rcases hsrc with hq | hq
      · rw [hq]
        rfl
      · exact hq.2
    · intro f2 hf2
      rcases List.mem_cons.mp hf2 with hh | hh
      · rw [hh]
        exact hle
      · exact hmax f2 hh

lemma dist_as_hypot (a : Agent) (bx bY : ℝ) :
    Real.sqrt ((bx - a.x) ^ 2 + (bY - a.y) ^ 2) = dist a.pos (bx, bY) := by
  simp only [dist, Agent.pos]
  congr 1
  ring

/-- Example greedy agent at (100,100). -/
noncomputable def aGEx : Agent :=
  { x := 100, y := 100, vx := 0, vy := 0, type := AgentType.greedy,
    wobble := 0, score := 0 }

/-- Example food at (200,100). -/
noncomputable def fGEx : Food :=
  { x := 200, y := 100, value := 10, mobile := false, vx := 0, vy := 0 }

/-- Example hazard at (105,100), adjacent to `aGEx` (distance 5 < 14). -/
noncomputable def hzEx : Danger :=
  { x := 105, y := 100, severity := 6, mobile := false, vx := 0, vy := 0 }

lemma dist_aGEx_hzEx : dist aGEx.pos (hzEx.x, hzEx.y) = 5 := by
  have h25 : ((100:ℝ) - 105) ^ 2 + ((100:ℝ) - 100) ^ 2 = 5 ^ 2 := by norm_num
  simp only [dist, aGEx, hzEx, Agent.pos]
  rw [h25, Real.sqrt_sq (by norm_num : (0:ℝ) ≤ 5)]

/-- C7 counterexample: the greedy branch of the source never reads the
danger list, so even a hazard adjacent to the agent (distance 5 < 14) leaves
the greedy decision bit-for-bit unchanged — contradicting the claim that
greedy stops ignoring hazards when one is adjacent. -/
theorem greedy_ignores_adjacent_hazard :
    dist aGEx.pos (hzEx.x, hzEx.y) < 14
    ∧ agentSteer aGEx [fGEx] [hzEx] gHalf = agentSteer aGEx [fGEx] [] gHalf := by
  constructor
  · rw [dist_aGEx_hzEx]
    norm_num
  · rfl

/-- C7 (amended): for a greedy agent and a non-empty percept the decision
ignores the hazard list entirely (adjacent or not), consumes no randomness,
and steers toward a food maximizing `value - 0.02 * distance`, adding
`0.05` times the unit vector toward that food to its velocity. -/
theorem greedy_targets_best_food (a : Agent) (fs : List Food)
    (ds ds2 : List Danger) (g : Rng)
    (hty : a.type = AgentType.greedy) (hfs : fs ≠ []) :
    agentSteer a fs ds g = agentSteer a fs ds2 g
    ∧ (agentSteer a fs ds g).2 = g
    ∧ ∃ b ∈ fs, (∀ f ∈ fs, foodScore a f ≤ foodScore a b)
        ∧ (agentSteer a fs ds g).1 = { a with
            vx := a.vx + (b.x - a.x) /
              (if dist a.pos (b.x, b.y) = 0 then 1 else dist a.pos (b.x, b.y)) * 0.05
            vy := a.vy + (b.y - a.y) /
              (if dist a.pos (b.x, b.y) = 0 then 1 else dist a.pos (b.x, b.y)) * 0.05 } := by
  obtain ⟨bq, hbf, hmem, hsc, hmax⟩ := bestFood_spec a fs hfs
  have hsteer : agentSteer a fs ds g = agentSteer a fs ds2 g := by
    simp only [agentSteer, hty]
  have hval : ∀ ds0 : List Danger, agentSteer a fs ds0 g = ({ a with
      vx := a.vx + (bq.1.x - a.x) /
        (if dist a.pos (bq.1.x, bq.1.y) = 0 then 1 else dist a.pos (bq.1.x, bq.1.y)) * 0.05
      vy := a.vy + (bq.1.y - a.y) /
        (if dist a.pos (bq.1.x, bq.1.y) = 0 then 1 else dist a.pos (bq.1.x, bq.1.y)) * 0.05 }, g) := by
    intro ds0
    simp only [agentSteer, hty, hbf]
    rw [dist_as_hypot a bq.1.x bq.1.y]
  refine ⟨hsteer, by rw [hval ds], bq.1, hmem, ?_, by rw [hval ds]⟩
  intro f hf
  rw [← hsc] at *
  exact hmax f hf

/-- C7 witness: the amended greedy theorem at a concrete percept. -/
theorem greedy_targets_best_food_witness :
    agentSteer aGEx [fGEx] [hzEx] gHalf = agentSteer aGEx [fGEx] [] gHalf
    ∧ (agentSteer aGEx [fGEx] [hzEx] gHalf).2 = gHalf
    ∧ ∃ b ∈ [fGEx], (∀ f ∈ [fGEx], foodScore aGEx f ≤ foodScore aGEx b)
        ∧ (agentSteer aGEx [fGEx] [hzEx] gHalf).1 = { aGEx with
            vx := aGEx.vx + (b.x - aGEx.x) /
              (if dist aGEx.pos (b.x, b.y) = 0 then 1 else dist aGEx.pos (b.x, b.y)) * 0.05
            vy := aGEx.vy + (b.y - aGEx.y) /
              (if dist aGEx.pos (b.x, b.y) = 0 then 1 else dist aGEx.pos (b.x, b.y)) * 0.05 } :=
  greedy_targets_best_food aGEx [fGEx] [hzEx] [] gHalf rfl (by simp)

/-!  C8: the cautious strategy. -/

/-- The flee half of the cautious branch: steer away from the nearest
danger when it is closer than 120. -/
noncomputable def cautiousFlee (a : Agent) (ds : List Danger) : Agent :=
  match nearestDanger a ds with
  | none => a
  | some np =>
    if np.2 < 120 then
      { a with
        vx := a.vx + (a.x - np.1.x) * 0.003
        vy := a.vy + (a.y - np.1.y) * 0.003 }
    else a

lemma nearestDanger_go (a : Agent) : ∀ (ds : List Danger) (bp : Danger × ℝ),
    ∃ bq, List.foldl (nearStep a) (some bp) ds = some bq
      ∧ (bq = bp ∨ (bq.1 ∈ ds ∧ bq.2 = dist a.pos (bq.1.x, bq.1.y)))
      ∧ bq.2 ≤ bp.2
      ∧ ∀ d ∈ ds, bq.2 ≤ dist a.pos (d.x, d.y) := by
  intro ds
  induction ds with
  | nil =>
    intro bp
    exact ⟨bp, rfl, Or.inl rfl, le_refl _, by simp⟩
  | cons d rest ih =>
    intro bp
    simp only [List.foldl_cons]
    by_cases hlt : dist a.pos (d.x, d.y) < bp.2
    · rw [show nearStep a (some bp) d = some (d, dist a.pos (d.x, d.y))
        from by simp [nearStep, hlt]]
      obtain ⟨bq, hfold, hsrc, hle, hmin⟩ := ih (d, dist a.pos (d.x, d.y))
      refine ⟨bq, hfold, ?_, ?_, ?_⟩
      · rcases hsrc with hq | hq
        · refine Or.inr ⟨?_, ?_⟩
          · rw [hq]
            exact List.mem_cons_self d rest
          · rw [hq]
        · exact Or.inr ⟨List.mem_cons_of_mem d hq.1, hq.2⟩
      · exact le_trans hle (le_of_lt hlt)
      · intro d2 hd2
        rcases List.mem_cons.mp hd2 with hh | hh
        · rw [hh]
          exact hle
        · exact hmin d2 hh
    · rw [show nearStep a (some bp) d = some bp from by simp [nearStep, hlt]]
      push_neg at hlt
      obtain ⟨bq, hfold, hsrc, hle, hmin⟩ := ih bp
      refine ⟨bq, hfold, ?_, hle, ?_⟩
      · rcases hsrc with hq | hq
        · exact Or.inl hq
        · exact Or.inr ⟨List.mem_cons_of_mem d hq.1, hq.2⟩
      · intro d2 hd2
        rcases List.mem_cons.mp hd2 with hh | hh
        · rw [hh]
          exact le_trans hle hlt
        · exact hmin d2 hh

lemma nearestDanger_spec (a : Agent) (ds : List Danger) (hds : ds ≠ []) :
    ∃ np, nearestDanger a ds = some np ∧ np.1 ∈ ds
      ∧ np.2 = dist a.pos (np.1.x, np.1.y)
      ∧ ∀ d ∈ ds, np.2 ≤ dist a.pos (d.x, d.y) := by
  cases ds with
  | nil => exact absurd rfl hds
  | cons d rest =>
    obtain ⟨bq, hfold, hsrc, hle, hmin⟩ :=
      nearestDanger_go a rest (d, dist a.pos (d.x, d.y))
    refine ⟨bq, ?_, ?_, ?_, ?_⟩
    · show List.foldl (nearStep a) none (d :: rest) = some bq
      rw [List.foldl_cons, show nearStep a none d = some (d, dist a.pos (d.x, d.y)) from rfl]
      exact hfold
    · rcases hsrc with hq | hq
      · rw [hq]
        exact List.mem_cons_self d rest
      · exact List.mem_cons_of_mem d hq.1
    · rcases hsrc with hq | hq
      · rw [hq]
      · exact hq.2
    · intro d2 hd2
      rcases List.mem_cons.mp hd2 with hh | hh
      · rw [hh]
        exact hle
      · exact hmin d2 hh

/-- C8 (amended): the cautious branch always applies the flee correction
when the nearest danger is closer than 120, and — independently, whether or
not it is fleeing — whenever any food is known it also drifts toward the
food selected by the uniform draw; the two effects add, the flee term is
not exclusive.  The last two conjuncts characterise the flee half:
`nearestDanger` really is the closest danger, and the correction fires
exactly below distance 120. -/
theorem cautious_flee_and_drift (a : Agent) (fs : List Food) (ds : List Danger)
    (g : Rng) (hty : a.type = AgentType.cautious) :
    (fs = [] → agentSteer a fs ds g = (cautiousFlee a ds, g))
    ∧ (fs ≠ [] →
        (agentSteer a fs ds g).2 = (randomDraw g).2
        ∧ (agentSteer a fs ds g).1 = { cautiousFlee a ds with
            vx := (cautiousFlee a ds).vx
              + ((fs.getD (⌊g 0 * (fs.length : ℝ)⌋).toNat fallbackFood).x - a.x) * 0.0008
            vy := (cautiousFlee a ds).vy
              + ((fs.getD (⌊g 0 * (fs.length : ℝ)⌋).toNat fallbackFood).y - a.y) * 0.0008 })
    ∧ (ds = [] → cautiousFlee a ds = a)
    ∧ (ds ≠ [] → ∃ np, nearestDanger a ds = some np ∧ np.1 ∈ ds
        ∧ np.2 = dist a.pos (np.1.x, np.1.y)
        ∧ (∀ d ∈ ds, np.2 ≤ dist a.pos (d.x, d.y))
        ∧ (np.2 < 120 → cautiousFlee a ds = { a with
            vx := a.vx + (a.x - np.1.x) * 0.003
            vy := a.vy + (a.y - np.1.y) * 0.003 })
        ∧ (¬ np.2 < 120 → cautiousFlee a ds = a)) := by
  refine ⟨?_, ?_, ?_, ?_⟩
  · intro hfs
    subst hfs
    cases hn : nearestDanger a ([] : List Danger) with
    | none => simp [agentSteer, hty, cautiousFlee, hn]
    | some np =>
      by_cases h120 : np.2 < 120 <;> simp [agentSteer, hty, cautiousFlee, hn, h120]
  · intro hfs
    have hlen : fs.length ≠ 0 := by
      simpa using fun hl => hfs (List.length_eq_zero.mp hl)
    cases hn : nearestDanger a ds with
    | none =>
      constructor <;> simp [agentSteer, hty, cautiousFlee, hn, hlen, randomDraw]
    | some np =>
      by_cases h120 : np.2 < 120 <;>
        (constructor <;> simp [agentSteer, hty, cautiousFlee, hn, h120, hlen, randomDraw])
  · intro hds
    subst hds
    simp [cautiousFlee, nearestDanger]
  · intro hds
    obtain ⟨np, hn, hmem, hdd, hmin⟩ := nearestDanger_spec a ds hds
    refine ⟨np, hn, hmem, hdd, hmin, ?_, ?_⟩
    · intro h120
      simp [cautiousFlee, hn, h120]
    · intro h120
      simp [cautiousFlee, hn, h120]

/-- Example cautious agent at (100,100). -/
noncomputable def aCEx : Agent :=
  { x := 100, y := 100, vx := 0, vy := 0, type := AgentType.cautious,
    wobble := 0, score := 0 }

/-- Example danger at (150,100), within the cautious safety radius
(distance 50 < 120) of `aCEx`. -/
noncomputable def dCEx : Danger :=
  { x := 150, y := 100, severity := 10, mobile := false, vx := 0, vy := 0 }

/-- Example food at (300,100). -/
noncomputable def fCEx : Food :=
  { x := 300, y := 100, value := 10, mobile := false, vx := 0, vy := 0 }

lemma dist_aCEx_dCEx : dist aCEx.pos (dCEx.x, dCEx.y) = 50 := by
  have h : ((100:ℝ) - 150) ^ 2 + ((100:ℝ) - 100) ^ 2 = 50 ^ 2 := by norm_num
  simp only [dist, aCEx, dCEx, Agent.pos]
  rw [h, Real.sqrt_sq (by norm_num : (0:ℝ) ≤ 50)]

/-- C8 counterexample: with a danger well inside the safety radius
(distance 50 < 120), the cautious agent still drifts toward a known food in
the same tick — the decision with the food present differs from the
flee-only decision, so resource-seeking is not suppressed while fleeing,
contradicting "only otherwise does it drift toward a resource". -/
theorem cautious_drifts_while_fleeing :
    dist aCEx.pos (dCEx.x, dCEx.y) < 120
    ∧ (agentSteer aCEx [fCEx] [dCEx] gHalf).1.vx
        ≠ (agentSteer aCEx [] [dCEx] gHalf).1.vx := by
  have h120 : dist ((100:ℝ), (100:ℝ)) ((150:ℝ), (100:ℝ)) < 120 := by
    have hd := dist_aCEx_dCEx
    simp only [aCEx, dCEx, Agent.pos] at hd
    rw [hd]
    norm_num
  constructor
  · rw [dist_aCEx_dCEx]
    norm_num
  · have hwith : (agentSteer aCEx [fCEx] [dCEx] gHalf).1.vx = 0.01 := by
      simp [agentSteer, aCEx, dCEx, fCEx, nearestDanger, nearStep, randomDraw, gHalf,
        Agent.pos, h120, fallbackFood]
      norm_num
    have hwithout : (agentSteer aCEx [] [dCEx] gHalf).1.vx = -0.15 := by
      simp [agentSteer, aCEx, dCEx, nearestDanger, nearStep, Agent.pos, h120]
      norm_num
    rw [hwith, hwithout]
    norm_num

/-- C8 witness: the amended cautious theorem at a concrete percept. -/
theorem cautious_flee_and_drift_witness :
    (([fCEx] : List Food) = [] →
        agentSteer aCEx [fCEx] [dCEx] gHalf = (cautiousFlee aCEx [dCEx], gHalf))
    ∧ (([fCEx] : List Food) ≠ [] →
        (agentSteer aCEx [fCEx] [dCEx] gHalf).2 = (randomDraw gHalf).2
        ∧ (agentSteer aCEx [fCEx] [dCEx] gHalf).1 = { cautiousFlee aCEx [dCEx] with
            vx := (cautiousFlee aCEx [dCEx]).vx
              + (([fCEx].getD (⌊gHalf 0 * (([fCEx] : List Food).length : ℝ)⌋).toNat
                  fallbackFood).x - aCEx.x) * 0.0008
            vy := (cautiousFlee aCEx [dCEx]).vy
              + (([fCEx].getD (⌊gHalf 0 * (([fCEx] : List Food).length : ℝ)⌋).toNat
                  fallbackFood).y - aCEx.y) * 0.0008 })
    ∧ (([dCEx] : List Danger) = [] → cautiousFlee aCEx [dCEx] = aCEx)
    ∧ (([dCEx] : List Danger) ≠ [] → ∃ np, nearestDanger aCEx [dCEx] = some np
        ∧ np.1 ∈ [dCEx]
        ∧ np.2 = dist aCEx.pos (np.1.x, np.1.y)
        ∧ (∀ d ∈ [dCEx], np.2 ≤ dist aCEx.pos (d.x, d.y))
        ∧ (np.2 < 120 → cautiousFlee aCEx [dCEx] = { aCEx with
            vx := aCEx.vx + (aCEx.x - np.1.x) * 0.003
            vy := aCEx.vy + (aCEx.y - np.1.y) * 0.003 })
        ∧ (¬ np.2 < 120 → cautiousFlee aCEx [dCEx] = aCEx)) :=
  cautious_flee_and_drift aCEx [fCEx] [dCEx] gHalf rfl

/-!  C9: configuration handling. -/

lemma spawnAgents_length (w h : ℝ) (ty : AgentType) : ∀ (n : ℕ) (g : Rng),
    (spawnAgents w h ty n g).1.length = n := by
  intro n
  induction n with
  | zero => intro g; rfl
  | succ k ih => intro g; simp [spawnAgents, ih]

lemma spawnFoods_length (w h : ℝ) : ∀ (n i : ℕ) (g : Rng),
    (spawnFoods w h i n g).1.length = n := by
  intro n
  induction n with
  | zero => intro i g; rfl
  | succ k ih => intro i g; simp [spawnFoods, ih]

lemma spawnDangers_length (w h : ℝ) : ∀ (n i : ℕ) (g : Rng),
    (spawnDangers w h i n g).1.length = n := by
  intro n
  induction n with
  | zero => intro i g; rfl
  | succ k ih => intro i g; simp [spawnDangers, ih]

/-- Control inputs with a negative agent count, a negative food count and a
negative danger count — an invalid configuration in the spec's taxonomy. -/
def cfgNeg : Config :=
  { agentCount := some (-5), pGreedy := some 0, pCautious := some 0,
    pExplorer := some 1, foodCount := some (-1), dangerCount := some (-1) }

lemma stepOnce_tick (s : SimState) (g : Rng) : (stepOnce s g).1.tick = s.tick + 1 := rfl

/-- C9 counterexample: `spawnAll` accepts the invalid configuration
`num_agents = -5` without any error — it silently coerces it to one agent
(`Math.max(1, ...)`), spawns a normal world, and the simulation then steps:
the first tick executes, so the run is not rejected before any tick. -/
theorem invalid_config_coerced_run_starts :
    (spawnAll 400 360 cfgNeg gHalf).1.agents.length = 1
    ∧ (spawnAll 400 360 cfgNeg gHalf).1.tick = 0
    ∧ (stepOnce (spawnAll 400 360 cfgNeg gHalf).1 gHalf).1.tick = 1 := by
  refine ⟨?_, rfl, ?_⟩
  · norm_num [spawnAll, cfgNeg, jsOr, spawnAgents_length]
  · rw [stepOnce_tick]
    rfl

/-- C9 (amended): no configuration is ever rejected — `spawnAll` is total
and silently coerces every input: the agent count is clamped to at least
one, the food and danger counts are clamped to at least zero after the
`Number(...)||default` fallback and `Math.floor`, and the run state starts
normally at tick 0 with score 0. -/
theorem spawn_config_coercion (w h : ℝ) (c : Config) (g : Rng) :
    1 ≤ (spawnAll w h c g).1.agents.length
    ∧ (spawnAll w h c g).1.foods.length = (max 0 ⌊jsOr c.foodCount 9⌋).toNat
    ∧ (spawnAll w h c g).1.dangers.length = (max 0 ⌊jsOr c.dangerCount 5⌋).toNat
    ∧ (spawnAll w h c g).1.tick = 0
    ∧ (spawnAll w h c g).1.score = 0 := by
  refine ⟨?_, ?_, ?_, rfl, rfl⟩
  · simp only [spawnAll, List.length_append, spawnAgents_length]
    have hN : (1:ℤ) ≤ max 1 ⌊jsOr c.agentCount 5⌋ := le_max_left 1 _
    omega
  · simp only [spawnAll, spawnFoods_length]
  · simp only [spawnAll, spawnDangers_length]

/-!  C10: the stats panel reports `max(0, round(score))`. -/

/-- Concrete state whose cumulative score has been driven negative. -/
noncomputable def sNegEx : SimState :=
  { agents := [aEx], foods := [], dangers := [], tick := 3, score := -5,
    w := 400, h := 360 }

/-- C10: the score shown by the stats panel is exactly
`max(0, round(score))`: it is never negative; it is 0 whenever the rounded
(or raw) cumulative score is negative, and equals the rounded score
otherwise. -/
theorem displayed_score_nonneg (s : SimState) :
    (updateStats s).score = max 0 (round s.score)
    ∧ 0 ≤ (updateStats s).score
    ∧ (round s.score < 0 → (updateStats s).score = 0)
    ∧ (0 ≤ round s.score → (updateStats s).score = round s.score)
    ∧ (s.score < 0 → (updateStats s).score = 0) := by
  refine ⟨rfl, le_max_left _ _, ?_, ?_, ?_⟩
  · intro hneg
    show max 0 (round s.score) = 0
    exact max_eq_left (le_of_lt hneg)
  · intro hpos
    show max 0 (round s.score) = round s.score
    exact max_eq_right hpos
  · intro hneg
    have hle : round s.score ≤ 0 := by
      rw [round_eq]
      calc ⌊s.score + 1 / 2⌋ ≤ ⌊(1 / 2 : ℝ)⌋ := Int.floor_le_floor (by linarith)
        _ = 0 := by norm_num
    show max 0 (round s.score) = 0
    exact max_eq_left hle

/-- C10 witness: a state with cumulative score −5 displays 0. -/
theorem displayed_score_nonneg_witness :
    sNegEx.score < 0 ∧ (updateStats sNegEx).score = 0 :=
  ⟨by norm_num [sNegEx],
    (displayed_score_nonneg sNegEx).2.2.2.2 (by norm_num [sNegEx])⟩

/-- C3 witness: the collision-resolution theorem at a concrete contact. -/
theorem collision_resolution_witness :
    (collectFoods aEx 0 ([] : List Food)).1.score = aEx.score + collectGain aEx []
    ∧ (hitDangers aEx 0 gZero [dEx]).2.2.1 = [] :=
  ⟨(collision_resolution aEx 0 [] [dEx] gZero).1.1,
    (collision_resolution aEx 0 [] [dEx] gZero).2.2.2.1⟩

/-- C4 witness: the frame property at concrete inputs. -/
theorem score_frame_property_witness :
    (agentSteer aEx [] [] gZero).1.score = aEx.score
    ∧ ∀ a2 ∈ (spawnAll 400 360 cfgOneExplorer gZero).1.agents, a2.score = 0 :=
  ⟨(score_frame_property 400 360 aEx [] [] 0 gZero sEx cfgOneExplorer).1,
    (score_frame_property 400 360 aEx [] [] 0 gZero sEx cfgOneExplorer).2.2.2.2⟩

/-- C9 witness: the coercion theorem at the invalid configuration. -/
theorem spawn_config_coercion_witness :
    1 ≤ (spawnAll 400 360 cfgNeg gHalf).1.agents.length
    ∧ (spawnAll 400 360 cfgNeg gHalf).1.tick = 0 :=
  ⟨(spawn_config_coercion 400 360 cfgNeg gHalf).1,
    (spawn_config_coercion 400 360 cfgNeg gHalf).2.2.2.1⟩

end Swarm
